import Mathlib

/-!
Shallow embedding of the metrics core of `dev-prod-metrics` (src/app/metrics.py).

Conventions of the embedding:
* A Python aware `datetime` is a `PyDatetime`: wall-clock civil fields plus a
  UTC offset in minutes.  Comparison and subtraction of aware datetimes go
  through `toEpochMicro` (microseconds since the Unix epoch), exactly as
  Python compares and subtracts aware datetimes by instant.
* `total_seconds()` results and all further float arithmetic are modelled as
  exact rationals (`ℚ`).
* Python exceptions (a `ValueError` from `datetime.strptime`) are modelled by
  `Option`: a function that can raise returns `none` on the raising path.
* Python's stable `sorted` is modelled by Mathlib's `List.insertionSort`,
  which is stable with the same tie-breaking (earlier input first).
* JSON nulls in changelog items (`fromString` / `toString`) are modelled as
  `Option String`; Python's `None == "literal"` is `False`, matching
  `none = some _` being false.
-/

/-- One entry of `history["items"]`: a single field change. -/
structure HistoryItem where
  field : String
  fromString : Option String
  toString : Option String
deriving DecidableEq, Repr

/-- One entry of `changelog["histories"]`: `created` is the raw Jira timestamp
string (the code sorts by this string), `items` the field changes recorded at
that instant. -/
structure History where
  created : String
  items : List HistoryItem
deriving DecidableEq, Repr

/-- The part of an issue record the metrics core reads:
`issue["fields"]["created"]` and `issue["changelog"]["histories"]`. -/
structure Issue where
  key : String
  fields_created : String
  histories : List History
deriving DecidableEq, Repr

/-- A Python timezone-aware datetime: wall-clock fields plus UTC offset. -/
structure PyDatetime where
  year : Int
  month : Int
  day : Int
  hour : Int
  minute : Int
  second : Int
  microsecond : Int
  offsetMinutes : Int
deriving DecidableEq, Repr

/-- Gregorian leap-year test. -/
def isLeapYear (y : Int) : Bool :=
  (y % 4 == 0 && y % 100 != 0) || y % 400 == 0

/-- Number of days in a month of the proleptic Gregorian calendar. -/
def daysInMonth (y m : Int) : Int :=
  if m = 2 then (if isLeapYear y then 29 else 28)
  else if m = 4 ∨ m = 6 ∨ m = 9 ∨ m = 11 then 30
  else 31

/-- Days since 1970-01-01 of a civil date (Howard Hinnant's algorithm; Lean's
`Int` division is floor division for the positive divisors used here, which
is exactly what the algorithm needs for the era split, and all remaining
intermediate values are non-negative). -/
def daysFromCivil (y m d : Int) : Int :=
  let y2 := y - (if m ≤ 2 then 1 else 0)
  let era := y2 / 400
  let yoe := y2 - era * 400
  let doy := (153 * (m + (if 2 < m then (-3) else 9)) + 2) / 5 + d - 1
  let doe := yoe * 365 + yoe / 4 - yoe / 100 + doy
  era * 146097 + doe - 719468

/-- The instant of an aware datetime, in microseconds since the Unix epoch.
Python compares and subtracts aware datetimes through this value. -/
def toEpochMicro (t : PyDatetime) : Int :=
  (daysFromCivil t.year t.month t.day * 86400
    + t.hour * 3600 + t.minute * 60 + t.second - t.offsetMinutes * 60) * 1000000
    + t.microsecond

/-- `a - b` for aware datetimes, in exact integer microseconds.  Python's
`(a - b).total_seconds()` is this value divided by 10^6; the embedding keeps
durations in microseconds (all Python increments here are exact multiples of
a microsecond) and divides once at the outermost return. -/
def subMicro (a b : PyDatetime) : Int :=
  toEpochMicro a - toEpochMicro b

/-- Microseconds to seconds, as an exact rational. -/
def microToSeconds (n : Int) : ℚ :=
  (n : ℚ) / 1000000

/-- `(a - b).total_seconds()` for aware datetimes, as an exact rational. -/
def tsub (a b : PyDatetime) : ℚ :=
  microToSeconds (subMicro a b)

/-- Numeric value of a decimal digit character. -/
def digitVal (c : Char) : Int :=
  (c.toNat : Int) - 48

/-- Two-digit decimal number from two characters. -/
def d2 (a b : Char) : Int :=
  10 * digitVal a + digitVal b

/-- Four-digit decimal number from four characters. -/
def d4 (a b c d : Char) : Int :=
  1000 * digitVal a + 100 * digitVal b + 10 * digitVal c + digitVal d

/-- Six-digit decimal number from six characters. -/
def d6 (a b c d e f : Char) : Int :=
  100000 * digitVal a + 10000 * digitVal b + 1000 * digitVal c
    + 100 * digitVal d + 10 * digitVal e + digitVal f

/-- `parse_jira_datetime`: `datetime.strptime(s, "%Y-%m-%dT%H:%M:%S.%f%z")`
on the canonical fixed-width Jira shape `YYYY-MM-DDTHH:MM:SS.ffffff±HHMM`
(the exact format the external system emits, per the format contract).
`none` models the `ValueError` raised on a non-matching string. -/
def parse_jira_datetime (s : String) : Option PyDatetime :=
  match s.data with
  | [y1, y2, y3, y4, c1, mo1, mo2, c2, dd1, dd2, c3, h1, h2, c4, mi1, mi2, c5,
     s1, s2, c6, f1, f2, f3, f4, f5, f6, sg, o1, o2, o3, o4] =>
    if c1 = '-' ∧ c2 = '-' ∧ c3 = 'T' ∧ c4 = ':' ∧ c5 = ':' ∧ c6 = '.'
        ∧ (sg = '+' ∨ sg = '-')
        ∧ y1.isDigit ∧ y2.isDigit ∧ y3.isDigit ∧ y4.isDigit
        ∧ mo1.isDigit ∧ mo2.isDigit ∧ dd1.isDigit ∧ dd2.isDigit
        ∧ h1.isDigit ∧ h2.isDigit ∧ mi1.isDigit ∧ mi2.isDigit
        ∧ s1.isDigit ∧ s2.isDigit
        ∧ f1.isDigit ∧ f2.isDigit ∧ f3.isDigit ∧ f4.isDigit ∧ f5.isDigit ∧ f6.isDigit
        ∧ o1.isDigit ∧ o2.isDigit ∧ o3.isDigit ∧ o4.isDigit then
      let year := d4 y1 y2 y3 y4
      let month := d2 mo1 mo2
      let day := d2 dd1 dd2
      let hour := d2 h1 h2
      let minute := d2 mi1 mi2
      let second := d2 s1 s2
      let off := d2 o1 o2 * 60 + d2 o3 o4
      if 1 ≤ month ∧ month ≤ 12 ∧ 1 ≤ day ∧ day ≤ daysInMonth year month
          ∧ hour ≤ 23 ∧ minute ≤ 59 ∧ second ≤ 59 ∧ d2 o3 o4 ≤ 59 ∧ off < 1440 then
        some { year := year, month := month, day := day, hour := hour,
               minute := minute, second := second,
               microsecond := d6 f1 f2 f3 f4 f5 f6,
               offsetMinutes := (if sg = '+' then 1 else -1) * off }
      else none
    else none
  | _ => none

/-! ## String primitives

Python compares strings lexicographically by code point; `strLe` / `strLt`
implement that order structurally (Lean's library order on `String` is the
same order, but its `Decidable` instances are opaque to kernel reduction, so
the embedding carries its own). -/

/-- Lexicographic (by code point) `a <= b` on character lists. -/
def charListLe : List Char → List Char → Bool
  | [], _ => true
  | _ :: _, [] => false
  | a :: as, b :: bs =>
    if a.toNat < b.toNat then true
    else if b.toNat < a.toNat then false
    else charListLe as bs

/-- Python's `a <= b` on strings. -/
def strLe (a b : String) : Bool :=
  charListLe a.data b.data

/-- Python's `a < b` on strings. -/
def strLt (a b : String) : Bool :=
  strLe a b && !(strLe b a)

/-- Python's `str.strip()` whitespace test (the ASCII whitespace characters;
the status names involved are ASCII). -/
def isPySpace (c : Char) : Bool :=
  c = ' ' || c = '\t' || c = '\n' || c = '\r' || c = '\x0b' || c = '\x0c'

/-- Python's `str.strip()`: drop leading and trailing whitespace. -/
def pyStrip (s : String) : String :=
  ⟨((s.data.dropWhile isPySpace).reverse.dropWhile isPySpace).reverse⟩

/-- ASCII lower-casing of one character (`str.lower` on the ASCII range). -/
def pyLowerChar (c : Char) : Char :=
  if 65 ≤ c.toNat ∧ c.toNat ≤ 90 then Char.ofNat (c.toNat + 32) else c

/-- Python's `str.lower()` (ASCII range). -/
def pyLower (s : String) : String :=
  ⟨s.data.map pyLowerChar⟩

/-! ## The Interval Accumulator (calculate_time_in_progress / calculate_time_in_review) -/

/-- The mutable state of the accumulation loop: `total_micro` is the running
`total_time_seconds` variable in microseconds, `start` is the
`in_progress_start` / `in_review_start` variable. -/
structure AccState where
  total_micro : Int
  start : Option PyDatetime
deriving DecidableEq, Repr

/-- The running total in seconds, as the Python float variable holds it. -/
def AccState.totalSeconds (st : AccState) : ℚ :=
  microToSeconds st.total_micro

/-- Python's stable `sorted(histories, key=lambda h: h["created"])`: sorts the
history entries by the RAW timestamp string, lexicographically. -/
def sortHistories (hs : List History) : List History :=
  List.insertionSort (fun a b => strLe a.created b.created = true) hs

/-- The body of the inner loop of `calculate_time_in_progress` for one item of
one history entry (whose parsed `created` is given):
* non-`status` items are skipped;
* `toString == "In Progress"` enters the status when `in_progress_start` is
  `None`, and otherwise does nothing;
* else `fromString == "In Progress"` with a start set closes the interval. -/
def stepInProgress (created : PyDatetime) (st : AccState) (item : HistoryItem) : AccState :=
  if item.field ≠ "status" then st
  else if item.toString = some "In Progress" then
    match st.start with
    | none => { st with start := some created }
    | some _ => st
  else if item.fromString = some "In Progress" ∧ st.start.isSome then
    match st.start with
    | some s => { total_micro := st.total_micro + subMicro created s, start := none }
    | none => st
  else st

/-- The outer loop of `calculate_time_in_progress`: each history's `created`
is parsed (a `ValueError`, i.e. `none`, aborts the whole call), then every
item of that history is processed at that instant. -/
def runInProgress : List History → AccState → Option AccState
  | [], st => some st
  | h :: rest, st =>
    match parse_jira_datetime h.created with
    | none => none
    | some created => runInProgress rest (h.items.foldl (stepInProgress created) st)

/-- `calculate_time_in_progress(changelog)`.  `now` (Python's
`datetime.now().astimezone()`) is passed explicitly.  Returns hours;
`none` models a `ValueError` escaping from `parse_jira_datetime`. -/
def calculate_time_in_progress (changelog : Issue) (now : PyDatetime) : Option ℚ :=
  (runInProgress (sortHistories changelog.histories) ⟨0, none⟩).map fun st =>
    (match st.start with
     | some s => microToSeconds (st.total_micro + subMicro now s)
     | none => st.totalSeconds) / 3600

/-- `is_in_review(status)` from `calculate_time_in_review`: Python truthiness
of the status string (None and "" are falsy), then
`status.strip().lower() == "in review"`. -/
def is_in_review : Option String → Bool
  | none => false
  | some s => s ≠ "" && pyLower (pyStrip s) = "in review"

/-- The body of the inner loop of `calculate_time_in_review` for one item:
same shape as `stepInProgress` but the status match is `is_in_review`
(case-insensitive, whitespace-trimmed). -/
def stepInReview (created : PyDatetime) (st : AccState) (item : HistoryItem) : AccState :=
  if item.field = "status" then
    if is_in_review item.toString then
      match st.start with
      | none => { st with start := some created }
      | some _ => st
    else if is_in_review item.fromString ∧ st.start.isSome then
      match st.start with
      | some s => { total_micro := st.total_micro + subMicro created s, start := none }
      | none => st
    else st
  else st

/-- The outer loop of `calculate_time_in_review`. -/
def runInReview : List History → AccState → Option AccState
  | [], st => some st
  | h :: rest, st =>
    match parse_jira_datetime h.created with
    | none => none
    | some created => runInReview rest (h.items.foldl (stepInReview created) st)

/-- The final value of the Python variable `total_time_seconds` of
`calculate_time_in_review`, including the open-interval top-up to `now`. -/
def time_in_review_seconds (changelog : Issue) (now : PyDatetime) : Option ℚ :=
  (runInReview (sortHistories changelog.histories) ⟨0, none⟩).map fun st =>
    match st.start with
    | some s => microToSeconds (st.total_micro + subMicro now s)
    | none => st.totalSeconds

/-- `calculate_time_in_review(changelog)` with `now` explicit: the
accumulated seconds are returned as hours when `total_time_seconds >= 3600`
and as minutes otherwise. -/
def calculate_time_in_review (changelog : Issue) (now : PyDatetime) : Option ℚ :=
  (runInReview (sortHistories changelog.histories) ⟨0, none⟩).map fun st =>
    let total_time_seconds : ℚ :=
      match st.start with
      | some s => microToSeconds (st.total_micro + subMicro now s)
      | none => st.totalSeconds
    if 3600 ≤ total_time_seconds then total_time_seconds / 3600
    else total_time_seconds / 60

/-! ## Lead time and completion date -/

/-- Does a history entry contain a status item moving the issue to "Done"?
(The Python inner loop over `history["items"]` with its `break`.) -/
def hasDoneItem (h : History) : Bool :=
  h.items.any fun it => it.field = "status" && it.toString = some "Done"

/-- The first history entry, in ORIGINAL (unsorted) changelog order, that
moves the issue to "Done". -/
def find_done_history (hs : List History) : Option History :=
  hs.find? hasDoneItem

/-- `calculate_lead_time(issue)`: parse `issue["fields"]["created"]`, scan for
the first transition to "Done" in original order, return hours or `None`.
Outer `none` models a `ValueError`; `some none` is the Python `None` return. -/
def calculate_lead_time (issue : Issue) : Option (Option ℚ) :=
  match parse_jira_datetime issue.fields_created with
  | none => none
  | some created =>
    match find_done_history issue.histories with
    | none => some none
    | some h =>
      match parse_jira_datetime h.created with
      | none => none
      | some done => some (some (microToSeconds (subMicro done created) / 3600))

/-- `get_issue_completion_date(issue)`: timestamp of the first transition to
"Done" in original order, or `None`.  Outer `none` models a `ValueError`. -/
def get_issue_completion_date (issue : Issue) : Option (Option PyDatetime) :=
  match find_done_history issue.histories with
  | none => some none
  | some h =>
    match parse_jira_datetime h.created with
    | none => none
    | some done => some (some done)

/-- `get_issue_creation_date(issue)`. -/
def get_issue_creation_date (issue : Issue) : Option PyDatetime :=
  parse_jira_datetime issue.fields_created

/-! ## The Period Bucketer (format_period_key) -/

/-- ISO weekday (Monday = 1 … Sunday = 7); 1970-01-01 was a Thursday. -/
def isoWeekday (y m d : Int) : Int :=
  (daysFromCivil y m d + 3) % 7 + 1

/-- Ordinal day of the year (Jan 1 = 1). -/
def dayOfYear (y m d : Int) : Int :=
  daysFromCivil y m d - daysFromCivil y 1 1 + 1

/-- Does the ISO week-numbering year `y` have 53 weeks?  (Jan 1 falls on a
Thursday, or on a Wednesday of a leap year.) -/
def isLongIsoYear (y : Int) : Bool :=
  isoWeekday y 1 1 == 4 || (isLeapYear y && isoWeekday y 1 1 == 3)

/-- The number of the last ISO week of ISO year `y` (52 or 53). -/
def lastIsoWeek (y : Int) : Int :=
  if isLongIsoYear y then 53 else 52

/-- Python's `date.isocalendar()[0..1]`: the ISO-8601 week-numbering year and
week of a civil date.  Late-December / early-January dates may land in a week
of the adjacent calendar year. -/
def isocalendarYearWeek (y m d : Int) : Int × Int :=
  let w := (dayOfYear y m d - isoWeekday y m d + 10) / 7
  if w < 1 then (y - 1, lastIsoWeek (y - 1))
  else if 52 < w ∧ ¬ isLongIsoYear y then (y + 1, 1)
  else (y, w)

/-- Zero-padded 2-digit decimal rendering (`%m`, `%d`, `{…:02d}`). -/
def pad2 (n : Int) : String :=
  if n < 10 then "0" ++ toString n else toString n

/-- Zero-padded 4-digit decimal rendering (CPython's `%Y`). -/
def pad4 (n : Int) : String :=
  if n < 10 then "000" ++ toString n
  else if n < 100 then "00" ++ toString n
  else if n < 1000 then "0" ++ toString n
  else toString n

/-- `format_period_key(date, period_type)`: the bucket key string.  The
weekly key uses `date.isocalendar()`, with the ISO year rendered unpadded
(f-string `{…}`) and the week zero-padded to two digits (`{…:02d}`); the
other keys use `strftime` fields of the wall-clock date.  An unknown
`period_type` yields `""`. -/
def format_period_key (date : PyDatetime) (period_type : String) : String :=
  if period_type = "yearly" then pad4 date.year
  else if period_type = "monthly" then pad4 date.year ++ "-" ++ pad2 date.month
  else if period_type = "weekly" then
    let p := isocalendarYearWeek date.year date.month date.day
    toString p.1 ++ "-W" ++ pad2 p.2
  else if period_type = "daily" then
    pad4 date.year ++ "-" ++ pad2 date.month ++ "-" ++ pad2 date.day
  else ""

/-! ## The Aggregator (calculate_averages / aggregate_metrics_by_period) -/

/-- Banker's rounding of a rational to the nearest integer (ties to even). -/
def roundHalfEven (x : ℚ) : Int :=
  let n := ⌊x⌋
  if x - n < 1 / 2 then n
  else if (1 : ℚ) / 2 < x - n then n + 1
  else if n % 2 = 0 then n else n + 1

/-- Python's `round(x, 2)`, modelled on exact rationals with banker's
rounding; CPython rounds the nearest-double representation instead, a
difference below anything the claims depend on. -/
def round2 (x : ℚ) : ℚ :=
  (roundHalfEven (x * 100) : ℚ) / 100

/-- The per-issue metrics dictionary built by `aggregate_metrics_by_period`
and consumed by `calculate_averages`.  A `none` models both an absent key
(Python `.get` default) and a `None` value; Python truthiness additionally
treats `0.0` as absent in the `valid_*` comprehensions. -/
structure MetricsDict where
  ticket_key : String
  time_in_progress_hours : Option ℚ
  time_in_review_hours : Option ℚ
  lead_time_hours : Option ℚ
deriving DecidableEq, Repr

/-- `[m[k] for m in metrics_list if m.get(k)]`: the values under one metric
key that are present and truthy (nonzero). -/
def truthyValues (f : MetricsDict → Option ℚ) (l : List MetricsDict) : List ℚ :=
  l.filterMap fun m =>
    match f m with
    | some x => if x ≠ 0 then some x else none
    | none => none

/-- The `valid_progress` list of `calculate_averages`. -/
def valid_progress (l : List MetricsDict) : List ℚ :=
  truthyValues (fun m => m.time_in_progress_hours) l

/-- The `valid_review` list of `calculate_averages`. -/
def valid_review (l : List MetricsDict) : List ℚ :=
  truthyValues (fun m => m.time_in_review_hours) l

/-- The `valid_lead` list of `calculate_averages`. -/
def valid_lead (l : List MetricsDict) : List ℚ :=
  truthyValues (fun m => m.lead_time_hours) l

/-- `sum(valid) / len(valid) if valid else 0`. -/
def listAvg (l : List ℚ) : ℚ :=
  if l ≠ [] then l.sum / (l.length : ℚ) else 0

/-- The summary record returned by `calculate_averages`. -/
structure Averages where
  ticket_count : Nat
  avg_time_in_progress_hours : ℚ
  avg_time_in_review_hours : ℚ
  avg_lead_time_hours : ℚ
  avg_time_in_progress_days : ℚ
  avg_time_in_review_days : ℚ
  avg_lead_time_days : ℚ
deriving DecidableEq, Repr

/-- The all-zero summary returned for an empty metrics list. -/
def emptyAverages : Averages :=
  { ticket_count := 0, avg_time_in_progress_hours := 0, avg_time_in_review_hours := 0,
    avg_lead_time_hours := 0, avg_time_in_progress_days := 0, avg_time_in_review_days := 0,
    avg_lead_time_days := 0 }

/-- `calculate_averages(metrics_list)`. -/
def calculate_averages (metrics_list : List MetricsDict) : Averages :=
  if metrics_list = [] then emptyAverages
  else
    let avg_progress := listAvg (valid_progress metrics_list)
    let avg_review := listAvg (valid_review metrics_list)
    let avg_lead := listAvg (valid_lead metrics_list)
    { ticket_count := metrics_list.length,
      avg_time_in_progress_hours := round2 avg_progress,
      avg_time_in_review_hours := round2 avg_review,
      avg_lead_time_hours := round2 avg_lead,
      avg_time_in_progress_days := round2 (avg_progress / 24),
      avg_time_in_review_days := round2 (avg_review / 24),
      avg_lead_time_days := round2 (avg_lead / 24) }

/-- `ensure_timezone_aware`: every `PyDatetime` of this embedding already
carries a UTC offset (Python's naive datetimes, which the function would
stamp with UTC, have no representation here), so the function is the
identity. -/
def ensure_timezone_aware (dt : Option PyDatetime) : Option PyDatetime :=
  dt

/-- One per-granularity `defaultdict(list)`: an insertion-ordered association
list from period key to the metrics dicts appended under that key. -/
abbrev Buckets := List (String × List MetricsDict)

/-- `bucket[key].append(v)` on a `defaultdict(list)`: append to the existing
key's list, or add a new key at the end (Python dicts preserve insertion
order). -/
def addToBuckets : Buckets → String → MetricsDict → Buckets
  | [], k, v => [(k, [v])]
  | (k', vs) :: rest, k, v =>
    if k' = k then (k', vs ++ [v]) :: rest
    else (k', vs) :: addToBuckets rest k v

/-- One element of a per-granularity result list: `{"period": …,
**avg_metrics}`. -/
structure PeriodRow where
  period : String
  stats : Averages
deriving DecidableEq, Repr

/-- `for period, metrics in sorted(bucket.items()): …`: sort the buckets by
key (tuple comparison reaches past the key only on equal keys, which cannot
occur among dict keys) and summarise each bucket. -/
def finalizeBuckets (bs : Buckets) : List PeriodRow :=
  (List.insertionSort (fun a b => strLe a.1 b.1 = true) bs).map fun p =>
    { period := p.1, stats := calculate_averages p.2 }

/-- The four bucket dictionaries of `aggregate_metrics_by_period`. -/
structure Buckets4 where
  yearly : Buckets
  monthly : Buckets
  weekly : Buckets
  daily : Buckets
deriving DecidableEq, Repr

/-- The result of `aggregate_metrics_by_period`. -/
structure AggResult where
  yearly : List PeriodRow
  monthly : List PeriodRow
  weekly : List PeriodRow
  daily : List PeriodRow
deriving DecidableEq, Repr

/-- One iteration of the per-issue loop of `aggregate_metrics_by_period`:
compute the three metrics (a `ValueError` in any of them, i.e. `none`, aborts
the whole call), skip the issue (returning the buckets unchanged) when its
lead time or completion date is `None` or its completion date falls outside
the filter bounds, and otherwise append the issue's metrics dict to all four
bucket dicts under the period keys of its completion date. -/
def issueBucketUpdate (now : PyDatetime) (start_date end_date : Option PyDatetime)
    (issue : Issue) (b : Buckets4) : Option Buckets4 :=
  match calculate_time_in_progress issue now with
  | none => none
  | some tip =>
    match calculate_time_in_review issue now with
    | none => none
    | some tir =>
      match calculate_lead_time issue with
      | none => none
      | some none => some b
      | some (some lt) =>
        match get_issue_creation_date issue with
        | none => none
        | some _ =>
          match get_issue_completion_date issue with
          | none => none
          | some none => some b
          | some (some completion) =>
            if (match start_date with
                | some sd => decide (toEpochMicro completion < toEpochMicro sd)
                | none => false) then some b
            else if (match end_date with
                | some ed => decide (toEpochMicro ed < toEpochMicro completion)
                | none => false) then some b
            else
              let md : MetricsDict :=
                { ticket_key := issue.key, time_in_progress_hours := some tip,
                  time_in_review_hours := some tir, lead_time_hours := some lt }
              some
                { yearly := addToBuckets b.yearly (format_period_key completion "yearly") md,
                  monthly := addToBuckets b.monthly (format_period_key completion "monthly") md,
                  weekly := addToBuckets b.weekly (format_period_key completion "weekly") md,
                  daily := addToBuckets b.daily (format_period_key completion "daily") md }

/-- The per-issue loop of `aggregate_metrics_by_period` over the whole issue
list, threading the four bucket dicts. -/
def processIssues (now : PyDatetime) (start_date end_date : Option PyDatetime) :
    List Issue → Buckets4 → Option Buckets4
  | [], b => some b
  | issue :: rest, b =>
    match issueBucketUpdate now start_date end_date issue b with
    | none => none
    | some b2 => processIssues now start_date end_date rest b2

/-- `aggregate_metrics_by_period(issues, start_date, end_date)` with `now`
explicit.  `none` models an exception escaping from a metric computation. -/
def aggregate_metrics_by_period (issues : List Issue)
    (start_date end_date : Option PyDatetime) (now : PyDatetime) : Option AggResult :=
  let sd := ensure_timezone_aware start_date
  let ed := ensure_timezone_aware end_date
  (processIssues now sd ed issues ⟨[], [], [], []⟩).map fun b =>
    { yearly := finalizeBuckets b.yearly, monthly := finalizeBuckets b.monthly,
      weekly := finalizeBuckets b.weekly, daily := finalizeBuckets b.daily }

/-- The shape `calculate_averages` guarantees for one metric of a non-empty
input list: either that metric has no valid (present, nonzero) values and its
averages are 0, or the division that defines them has the non-empty valid
list's length — a nonzero denominator — below it. -/
def guardedAvgSpec (valid : List ℚ) (hoursVal daysVal : ℚ) : Prop :=
  (valid = [] ∧ hoursVal = 0 ∧ daysVal = 0) ∨
  (valid ≠ [] ∧ ((valid.length : ℚ) ≠ 0 ∧
    hoursVal = round2 (valid.sum / (valid.length : ℚ)) ∧
    daysVal = round2 (valid.sum / (valid.length : ℚ) / 24)))

/-- Well-formedness of a bucket dict: every key holds a non-empty list (keys
exist only once something was appended under them) and keys are distinct
(they are dict keys). -/
def BucketsWF (bs : Buckets) : Prop :=
  (∀ p ∈ bs, p.2 ≠ ([] : List MetricsDict)) ∧ (bs.map Prod.fst).Nodup

/-! ## Spec-side chronological sorting (for comparison with the code's
string sort) -/

/-- The instant of a history entry's parsed timestamp (a non-parsing string,
excluded by hypothesis wherever this matters, keys as 0). -/
def timeKey (h : History) : Int :=
  match parse_jira_datetime h.created with
  | some t => toEpochMicro t
  | none => 0

/-- Spec-side sorting: stable sort of the history entries by their PARSED
timestamp (chronological order, ties keeping input order), as the spec
describes the Interval Accumulator. -/
def sortHistoriesChrono (hs : List History) : List History :=
  List.insertionSort (fun a b => timeKey a ≤ timeKey b) hs

/-- Spec-side `calculate_time_in_progress`: identical accumulation, but over
the chronologically sorted history sequence. -/
def calculate_time_in_progress_chrono (changelog : Issue) (now : PyDatetime) : Option ℚ :=
  (runInProgress (sortHistoriesChrono changelog.histories) ⟨0, none⟩).map fun st =>
    (match st.start with
     | some s => microToSeconds (st.total_micro + subMicro now s)
     | none => st.totalSeconds) / 3600

/-- Spec-side `calculate_time_in_review`: identical accumulation and unit
switch, but over the chronologically sorted history sequence. -/
def calculate_time_in_review_chrono (changelog : Issue) (now : PyDatetime) : Option ℚ :=
  (runInReview (sortHistoriesChrono changelog.histories) ⟨0, none⟩).map fun st =>
    let total_time_seconds : ℚ :=
      match st.start with
      | some s => microToSeconds (st.total_micro + subMicro now s)
      | none => st.totalSeconds
    if 3600 ≤ total_time_seconds then total_time_seconds / 3600
    else total_time_seconds / 60

/-! ## Concrete fixtures used by witnesses and counterexamples -/

/-- The issue of the spec's end-to-end scenario: created 2024-01-01, to
"In Progress" on 2024-01-02, to "In Review" on 2024-01-03, to "Done" on
2024-01-05 (all at midnight UTC). -/
def scenarioIssue : Issue :=
  { key := "DEV-1",
    fields_created := "2024-01-01T00:00:00.000000+0000",
    histories :=
      [ { created := "2024-01-02T00:00:00.000000+0000",
          items := [{ field := "status", fromString := some "To Do",
                      toString := some "In Progress" }] },
        { created := "2024-01-03T00:00:00.000000+0000",
          items := [{ field := "status", fromString := some "In Progress",
                      toString := some "In Review" }] },
        { created := "2024-01-05T00:00:00.000000+0000",
          items := [{ field := "status", fromString := some "In Review",
                      toString := some "Done" }] } ] }

/-- An arbitrary concrete evaluation instant. -/
def someNow : PyDatetime :=
  ⟨2024, 1, 6, 0, 0, 0, 0, 0⟩

/-- A changelog with two UTC offsets whose lexicographic string order
disagrees with chronological order: the entry stamped `12:00+0500`
(07:00 UTC) sorts AFTER the entry stamped `10:00+0000` (10:00 UTC). -/
def mixedOffsetIssue : Issue :=
  { key := "DEV-2",
    fields_created := "2024-01-01T00:00:00.000000+0000",
    histories :=
      [ { created := "2024-01-01T10:00:00.000000+0000",
          items := [{ field := "status", fromString := some "To Do",
                      toString := some "In Progress" }] },
        { created := "2024-01-01T12:00:00.000000+0500",
          items := [{ field := "status", fromString := some "In Progress",
                      toString := some "Done" }] } ] }

/-- The evaluation instant used with `mixedOffsetIssue`: 10:00 UTC on the
same day. -/
def mixedOffsetNow : PyDatetime :=
  ⟨2024, 1, 1, 10, 0, 0, 0, 0⟩

/-- An issue that entered "In Progress" and never left it (and has an
earlier, closed visit), used for the open-interval claims. -/
def openIntervalIssue : Issue :=
  { key := "DEV-3",
    fields_created := "2024-01-01T00:00:00.000000+0000",
    histories :=
      [ { created := "2024-01-02T00:00:00.000000+0000",
          items := [{ field := "status", fromString := some "To Do",
                      toString := some "In Progress" }] },
        { created := "2024-01-02T12:00:00.000000+0000",
          items := [{ field := "status", fromString := some "In Progress",
                      toString := some "Blocked" }] },
        { created := "2024-01-03T00:00:00.000000+0000",
          items := [{ field := "status", fromString := some "Blocked",
                      toString := some "In Progress" }] } ] }

/-- A concrete instant on 2023-01-01 with a nonzero time of day and offset. -/
def isoBoundaryDate : PyDatetime :=
  ⟨2023, 1, 1, 15, 30, 45, 123456, 60⟩

/-- A concrete accumulator state already inside the target status. -/
def reentryState : AccState :=
  ⟨7200000000, some ⟨2024, 1, 2, 0, 0, 0, 0, 0⟩⟩

/-- A concrete duplicate entry event for "In Progress". -/
def reentryItemProgress : HistoryItem :=
  ⟨"status", some "Blocked", some "In Progress"⟩

/-- A concrete duplicate entry event for "In Review". -/
def reentryItemReview : HistoryItem :=
  ⟨"status", some "Blocked", some "in Review"⟩

/-! # Theorems -/

/-- C2: on the issue created 2024-01-01T00:00:00.000000+0000 whose history
moves it to "In Progress" on 2024-01-02, to "In Review" on 2024-01-03 and to
"Done" on 2024-01-05 (all midnight, same offset), `calculate_time_in_progress`
returns 24 hours, `calculate_time_in_review` returns 48 hours and
`calculate_lead_time` returns 96 hours, whatever the evaluation instant. -/
theorem C2_scenario_metrics (now : PyDatetime) :
    calculate_time_in_progress scenarioIssue now = some 24 ∧
    calculate_time_in_review scenarioIssue now = some 48 ∧
    calculate_lead_time scenarioIssue = some (some 96) := by
  refine ⟨?_, ?_, ?_⟩
  · have h : runInProgress (sortHistories scenarioIssue.histories) ⟨0, none⟩ =
        some ⟨86400000000, none⟩ := by decide
    simp only [calculate_time_in_progress, h, Option.map_some']
    norm_num [AccState.totalSeconds, microToSeconds]
  · have h : runInReview (sortHistories scenarioIssue.histories) ⟨0, none⟩ =
        some ⟨172800000000, none⟩ := by decide
    simp only [calculate_time_in_review, h, Option.map_some']
    norm_num [AccState.totalSeconds, microToSeconds]
  · have h1 : parse_jira_datetime scenarioIssue.fields_created =
        some ⟨2024, 1, 1, 0, 0, 0, 0, 0⟩ := by decide
    have h2 : find_done_history scenarioIssue.histories = some
        { created := "2024-01-05T00:00:00.000000+0000",
          items := [{ field := "status", fromString := some "In Review",
                      toString := some "Done" }] } := by decide
    have h3 : parse_jira_datetime "2024-01-05T00:00:00.000000+0000" =
        some ⟨2024, 1, 5, 0, 0, 0, 0, 0⟩ := by decide
    have h4 : subMicro ⟨2024, 1, 5, 0, 0, 0, 0, 0⟩ ⟨2024, 1, 1, 0, 0, 0, 0, 0⟩ =
        345600000000 := by decide
    simp only [calculate_lead_time, h1, h2, h3, h4]
    norm_num [microToSeconds]

/-- C3: `calculate_time_in_review` returns the accumulated total divided by
3600 (hours) when the total is at least 3600 seconds, and divided by 60
(minutes) when it is strictly below 3600 seconds. -/
theorem C3_review_unit_switch (changelog : Issue) (now : PyDatetime) (s : ℚ)
    (h : time_in_review_seconds changelog now = some s) :
    (3600 ≤ s → calculate_time_in_review changelog now = some (s / 3600)) ∧
    (s < 3600 → calculate_time_in_review changelog now = some (s / 60)) := by
  cases hrun : runInReview (sortHistories changelog.histories) ⟨0, none⟩ with
  | none => simp [time_in_review_seconds, hrun] at h
  | some st =>
    simp only [time_in_review_seconds, hrun, Option.map_some', Option.some.injEq] at h
    simp only [calculate_time_in_review, hrun, Option.map_some']
    rw [h]
    constructor
    · intro hge
      rw [if_pos hge]
    · intro hlt
      rw [if_neg (not_le.mpr hlt)]

/-- C3 witness: the scenario issue accumulates 172800 seconds in review, at
least 3600, so the result is expressed in hours. -/
theorem C3_witness :
    calculate_time_in_review scenarioIssue someNow = some ((172800 : ℚ) / 3600) := by
  have hr : runInReview (sortHistories scenarioIssue.histories) ⟨0, none⟩ =
      some ⟨172800000000, none⟩ := by decide
  have h : time_in_review_seconds scenarioIssue someNow = some 172800 := by
    simp only [time_in_review_seconds, hr, Option.map_some', AccState.totalSeconds]
    norm_num [microToSeconds]
  exact (C3_review_unit_switch scenarioIssue someNow 172800 h).1 (by norm_num)

/-- C5: for any instant whose civil date is 2023-01-01 (a Sunday in ISO week
52 of 2022), `format_period_key` yields "2023" (yearly), "2023-01" (monthly),
"2023-01-01" (daily), but "2022-W52" (weekly): the weekly key carries the ISO
week-numbering year, not the calendar year. -/
theorem C5_period_keys_iso_boundary (d : PyDatetime)
    (hy : d.year = 2023) (hm : d.month = 1) (hd : d.day = 1) :
    format_period_key d "yearly" = "2023" ∧
    format_period_key d "monthly" = "2023-01" ∧
    format_period_key d "daily" = "2023-01-01" ∧
    format_period_key d "weekly" = "2022-W52" := by
  simp only [format_period_key]
  rw [hy, hm, hd]
  decide

/-- C5 witness: the period keys of a concrete instant on 2023-01-01. -/
theorem C5_witness :
    format_period_key isoBoundaryDate "yearly" = "2023" ∧
    format_period_key isoBoundaryDate "monthly" = "2023-01" ∧
    format_period_key isoBoundaryDate "daily" = "2023-01-01" ∧
    format_period_key isoBoundaryDate "weekly" = "2022-W52" :=
  C5_period_keys_iso_boundary isoBoundaryDate rfl rfl rfl

/-- C7: while the interval start is already set, a further event whose
toStatus equals the target status is a no-op for both accumulators: the state
(start and running total) is returned unchanged, so duplicate entry events
never inflate the totals. -/
theorem C7_reentry_noop (created : PyDatetime) (st : AccState) (item : HistoryItem)
    (s : PyDatetime) (hs : st.start = some s) :
    (item.field = "status" → item.toString = some "In Progress" →
      stepInProgress created st item = st) ∧
    (item.field = "status" → is_in_review item.toString = true →
      stepInReview created st item = st) := by
  constructor
  · intro hf ht
    simp [stepInProgress, hf, ht, hs]
  · intro hf ht
    simp [stepInReview, hf, ht, hs]

/-- C7 witness: concrete duplicate entry events leave a concrete in-progress
accumulator state untouched. -/
theorem C7_witness :
    stepInProgress someNow reentryState reentryItemProgress = reentryState ∧
    stepInReview someNow reentryState reentryItemReview = reentryState :=
  ⟨(C7_reentry_noop someNow reentryState reentryItemProgress
      ⟨2024, 1, 2, 0, 0, 0, 0, 0⟩ rfl).1 rfl rfl,
   (C7_reentry_noop someNow reentryState reentryItemReview
      ⟨2024, 1, 2, 0, 0, 0, 0, 0⟩ rfl).2 rfl (by decide)⟩

/-- A history entry moves the issue to "Done" iff one of its status items has
toString "Done". -/
lemma hasDoneItem_iff (h : History) :
    hasDoneItem h = true ↔
      ∃ it ∈ h.items, it.field = "status" ∧ it.toString = some "Done" := by
  simp [hasDoneItem, List.any_eq_true, Bool.and_eq_true, decide_eq_true_eq]

/-- `calculate_lead_time` is the Python `None` exactly when the changelog has
no "Done" history (given that the creation timestamp parses). -/
lemma calculate_lead_time_eq_none_iff (issue : Issue) (c : PyDatetime)
    (hc : parse_jira_datetime issue.fields_created = some c) :
    calculate_lead_time issue = some none ↔
      find_done_history issue.histories = none := by
  unfold calculate_lead_time
  rw [hc]
  cases hfd : find_done_history issue.histories with
  | none => simp
  | some h =>
    cases hp : parse_jira_datetime h.created with
    | none => simp [hp]
    | some d => simp [hp]

/-- C4: `calculate_lead_time` returns `None` exactly when no status-change
event has toStatus "Done"; when one exists, the result is the timestamp of
the first history (in original, non-re-sorted order) containing such a
transition, minus the creation timestamp, in hours. -/
theorem C4_lead_time_done (issue : Issue) (c : PyDatetime)
    (hc : parse_jira_datetime issue.fields_created = some c) :
    (calculate_lead_time issue = some none ↔
      ∀ h ∈ issue.histories, ∀ it ∈ h.items,
        ¬(it.field = "status" ∧ it.toString = some "Done")) ∧
    (∀ pre hist post d, issue.histories = pre ++ hist :: post →
      (∀ h ∈ pre, hasDoneItem h = false) → hasDoneItem hist = true →
      parse_jira_datetime hist.created = some d →
      calculate_lead_time issue =
        some (some (microToSeconds (subMicro d c) / 3600))) := by
  constructor
  · rw [calculate_lead_time_eq_none_iff issue c hc, find_done_history,
      List.find?_eq_none]
    constructor
    · intro hall h hh it hit hcontra
      have := hall h hh
      exact this ((hasDoneItem_iff h).mpr ⟨it, hit, hcontra.1, hcontra.2⟩)
    · intro hall h hh hdone
      obtain ⟨it, hit, hf, ht⟩ := (hasDoneItem_iff h).mp hdone
      exact hall h hh it hit ⟨hf, ht⟩
  · intro pre hist post d hsplit hpre hdone hp
    have hfd : find_done_history issue.histories = some hist := by
      rw [find_done_history, hsplit, List.find?_append]
      have h1 : pre.find? hasDoneItem = none :=
        List.find?_eq_none.mpr fun x hx => by simp [hpre x hx]
      rw [h1, List.find?_cons_of_pos _ hdone]
      rfl
    simp only [calculate_lead_time, hc, hfd, hp]

/-- C4 witness: on the scenario issue the first "Done" history is the third
one, so the lead time is its timestamp minus the creation timestamp. -/
theorem C4_witness :
    calculate_lead_time scenarioIssue =
      some (some (microToSeconds (subMicro ⟨2024, 1, 5, 0, 0, 0, 0, 0⟩
        ⟨2024, 1, 1, 0, 0, 0, 0, 0⟩) / 3600)) :=
  (C4_lead_time_done scenarioIssue ⟨2024, 1, 1, 0, 0, 0, 0, 0⟩ (by decide)).2
    [ { created := "2024-01-02T00:00:00.000000+0000",
        items := [{ field := "status", fromString := some "To Do",
                    toString := some "In Progress" }] },
      { created := "2024-01-03T00:00:00.000000+0000",
        items := [{ field := "status", fromString := some "In Progress",
                    toString := some "In Review" }] } ]
    { created := "2024-01-05T00:00:00.000000+0000",
      items := [{ field := "status", fromString := some "In Review",
                  toString := some "Done" }] }
    [] ⟨2024, 1, 5, 0, 0, 0, 0, 0⟩ (by decide) (by decide) (by decide) (by decide)

/-- C9: `calculate_lead_time` returns `None` precisely when
`get_issue_completion_date` returns `None` — both scan the original order for
the first toStatus "Done" transition — and when the lead time is a value the
completion date is a value too, so the Aggregator's second skip condition is
redundant. -/
theorem C9_lead_null_iff_completion_null (issue : Issue)
    (hc : (parse_jira_datetime issue.fields_created).isSome = true) :
    (calculate_lead_time issue = some none ↔
      get_issue_completion_date issue = some none) ∧
    (∀ x, calculate_lead_time issue = some (some x) →
      ∃ t, get_issue_completion_date issue = some (some t)) := by
  obtain ⟨c, hc⟩ := Option.isSome_iff_exists.mp hc
  unfold calculate_lead_time get_issue_completion_date
  rw [hc]
  cases hfd : find_done_history issue.histories with
  | none => simp
  | some h =>
    cases hp : parse_jira_datetime h.created with
    | none => simp [hp]
    | some d =>
      simp only [hp]
      refine ⟨by simp, ?_⟩
      intro x _
      exact ⟨d, rfl⟩

/-- C9 witness: on the scenario issue the lead time is a value and so is the
completion date. -/
theorem C9_witness :
    ∃ t, get_issue_completion_date scenarioIssue = some (some t) :=
  (C9_lead_null_iff_completion_null scenarioIssue (by decide)).2
    (microToSeconds (subMicro ⟨2024, 1, 5, 0, 0, 0, 0, 0⟩
      ⟨2024, 1, 1, 0, 0, 0, 0, 0⟩) / 3600) rfl

/-- Rounding zero gives zero. -/
lemma round2_zero : round2 0 = 0 := by
  norm_num [round2, roundHalfEven]

/-- `calculate_averages` on a non-empty list, with the branch taken and the
lets expanded. -/
lemma calculate_averages_nonempty (l : List MetricsDict) (hl : l ≠ []) :
    calculate_averages l =
      { ticket_count := l.length,
        avg_time_in_progress_hours := round2 (listAvg (valid_progress l)),
        avg_time_in_review_hours := round2 (listAvg (valid_review l)),
        avg_lead_time_hours := round2 (listAvg (valid_lead l)),
        avg_time_in_progress_days := round2 (listAvg (valid_progress l) / 24),
        avg_time_in_review_days := round2 (listAvg (valid_review l) / 24),
        avg_lead_time_days := round2 (listAvg (valid_lead l) / 24) } := by
  simp only [calculate_averages, if_neg hl]

/-- The rounded average of one valid-value list satisfies the guarded shape. -/
lemma guardedAvgSpec_round2_listAvg (v : List ℚ) :
    guardedAvgSpec v (round2 (listAvg v)) (round2 (listAvg v / 24)) := by
  by_cases hv : v = []
  · subst hv
    left
    refine ⟨rfl, ?_, ?_⟩ <;> simp [listAvg, round2_zero]
  · right
    refine ⟨hv, ?_, ?_, ?_⟩
    · exact Nat.cast_ne_zero.mpr fun h => hv (List.length_eq_zero.mp h)
    · rw [listAvg, if_pos hv]
    · rw [listAvg, if_pos hv]

/-- C6: `calculate_averages` of the empty list is the all-zero summary with
count 0, and on every non-empty list each of the six average fields is either
0 (that metric has no valid values) or a division by the non-empty valid
list's length — never a division by zero. -/
theorem C6_averages_empty_and_guarded :
    calculate_averages [] = emptyAverages ∧
    ∀ l : List MetricsDict, l ≠ [] →
      (calculate_averages l).ticket_count = l.length ∧
      guardedAvgSpec (valid_progress l)
        (calculate_averages l).avg_time_in_progress_hours
        (calculate_averages l).avg_time_in_progress_days ∧
      guardedAvgSpec (valid_review l)
        (calculate_averages l).avg_time_in_review_hours
        (calculate_averages l).avg_time_in_review_days ∧
      guardedAvgSpec (valid_lead l)
        (calculate_averages l).avg_lead_time_hours
        (calculate_averages l).avg_lead_time_days := by
  refine ⟨rfl, ?_⟩
  intro l hl
  rw [calculate_averages_nonempty l hl]
  exact ⟨rfl, guardedAvgSpec_round2_listAvg _, guardedAvgSpec_round2_listAvg _,
    guardedAvgSpec_round2_listAvg _⟩

/-- Microsecond-to-seconds conversion is monotone. -/
lemma microToSeconds_mono {a b : Int} (h : a ≤ b) :
    microToSeconds a ≤ microToSeconds b := by
  unfold microToSeconds
  exact (div_le_div_iff_of_pos_right (by norm_num)).mpr (Int.cast_le.mpr h)

/-- One accumulator step at instant `created` keeps the running total
non-negative and any open interval start at or before `created`, provided the
incoming state satisfied the same bound. -/
lemma stepInProgress_inv (created : PyDatetime) (item : HistoryItem)
    (tot : Int) (sopt : Option PyDatetime) (h0 : 0 ≤ tot)
    (h1 : ∀ s, sopt = some s → toEpochMicro s ≤ toEpochMicro created) :
    0 ≤ (stepInProgress created ⟨tot, sopt⟩ item).total_micro ∧
    ∀ s, (stepInProgress created ⟨tot, sopt⟩ item).start = some s →
      toEpochMicro s ≤ toEpochMicro created := by
  cases sopt with
  | none =>
    unfold stepInProgress
    split_ifs with hf ht hfr
    · exact ⟨h0, fun s hs => nomatch hs⟩
    · refine ⟨h0, fun s hs => ?_⟩
      cases hs
      exact le_refl _
    · exact ⟨h0, fun s hs => nomatch hs⟩
    · exact ⟨h0, fun s hs => nomatch hs⟩
  | some s0 =>
    have hb : toEpochMicro s0 ≤ toEpochMicro created := h1 s0 rfl
    unfold stepInProgress
    split_ifs with hf ht hfr
    · exact ⟨h0, h1⟩
    · exact ⟨h0, h1⟩
    · refine ⟨?_, fun s hs => nomatch hs⟩
      show 0 ≤ tot + subMicro created s0
      unfold subMicro
      omega
    · exact ⟨h0, h1⟩

/-- The inner item loop preserves the accumulator invariant. -/
lemma foldl_stepInProgress_inv (created : PyDatetime) :
    ∀ (items : List HistoryItem) (st : AccState), 0 ≤ st.total_micro →
      (∀ s, st.start = some s → toEpochMicro s ≤ toEpochMicro created) →
      0 ≤ (items.foldl (stepInProgress created) st).total_micro ∧
      ∀ s, (items.foldl (stepInProgress created) st).start = some s →
        toEpochMicro s ≤ toEpochMicro created
  | [], st, h0, h1 => ⟨h0, h1⟩
  | it :: items, ⟨tot, sopt⟩, h0, h1 => by
    have h := stepInProgress_inv created it tot sopt h0 h1
    exact foldl_stepInProgress_inv created items _ h.1 h.2

/-- When the sorted history sequence is chronologically non-decreasing, the
accumulated total of `runInProgress` stays non-negative: every closed
interval closes at or after it opened. -/
lemma runInProgress_total_nonneg :
    ∀ (hs : List History) (st st' : AccState),
      List.Chain' (fun a b => timeKey a ≤ timeKey b) hs →
      0 ≤ st.total_micro →
      (∀ s, st.start = some s → ∀ h, hs.head? = some h →
        toEpochMicro s ≤ timeKey h) →
      runInProgress hs st = some st' → 0 ≤ st'.total_micro
  | [], st, st', _, h0, _, heq => by
    cases heq
    exact h0
  | h :: rest, st, st', hchain, h0, h1, heq => by
    cases hp : parse_jira_datetime h.created with
    | none =>
      rw [runInProgress, hp] at heq
      exact Option.noConfusion heq
    | some created =>
      rw [runInProgress, hp] at heq
      have htk : timeKey h = toEpochMicro created := by
        rw [timeKey, hp]
      have hbound : ∀ s, st.start = some s → toEpochMicro s ≤ toEpochMicro created :=
        fun s hsx => htk ▸ h1 s hsx h rfl
      have hf := foldl_stepInProgress_inv created h.items st h0 hbound
      refine runInProgress_total_nonneg rest _ st' hchain.tail hf.1 ?_ heq
      intro s hsx h2 hh2
      cases rest with
      | nil => exact Option.noConfusion hh2
      | cons r rs =>
        have hr2 : r = h2 := by
          injection hh2
        subst hr2
        exact (hf.2 s hsx).trans (htk ▸ (List.chain'_cons.mp hchain).1)

/-- C8: with the evaluation instant as a parameter, the in-progress time of
an issue sitting in "In Progress" (interval start still set after the scan)
is monotonically non-decreasing in the evaluation instant, and — when the
sorted event sequence is chronologically ordered — at least the elapsed time
from the interval start to the evaluation instant, in hours. -/
theorem C8_open_interval_bound_monotone (changelog : Issue) :
    (∀ now1 now2 r1 r2, toEpochMicro now1 ≤ toEpochMicro now2 →
      calculate_time_in_progress changelog now1 = some r1 →
      calculate_time_in_progress changelog now2 = some r2 → r1 ≤ r2) ∧
    (∀ st s now r,
      List.Chain' (fun a b => timeKey a ≤ timeKey b) (sortHistories changelog.histories) →
      runInProgress (sortHistories changelog.histories) ⟨0, none⟩ = some st →
      st.start = some s →
      calculate_time_in_progress changelog now = some r →
      tsub now s / 3600 ≤ r) := by
  constructor
  · intro now1 now2 r1 r2 hle h1 h2
    cases hrun : runInProgress (sortHistories changelog.histories) ⟨0, none⟩ with
    | none =>
      rw [calculate_time_in_progress, hrun] at h1
      exact Option.noConfusion h1
    | some st =>
      rw [calculate_time_in_progress, hrun] at h1 h2
      simp only [Option.map_some', Option.some.injEq] at h1 h2
      subst h1
      subst h2
      cases hst : st.start with
      | none => simp [hst]
      | some s =>
        simp only [hst]
        refine (div_le_div_iff_of_pos_right (by norm_num)).mpr (microToSeconds_mono ?_)
        unfold subMicro
        omega
  · intro st s now r hchain hrun hst hr
    have htot : 0 ≤ st.total_micro :=
      runInProgress_total_nonneg (sortHistories changelog.histories) ⟨0, none⟩ st hchain
        le_rfl (fun s0 hs0 => nomatch hs0) hrun
    rw [calculate_time_in_progress, hrun] at hr
    simp only [Option.map_some', Option.some.injEq] at hr
    subst hr
    simp only [hst]
    rw [tsub]
    exact (div_le_div_iff_of_pos_right (by norm_num)).mpr
      (microToSeconds_mono (le_add_of_nonneg_left htot))

/-- Inserting with two relations that agree on the elements involved gives
the same list. -/
lemma orderedInsert_congr (r r' : History → History → Prop)
    [DecidableRel r] [DecidableRel r'] :
    ∀ (l : List History) (a : History), (∀ b ∈ l, (r a b ↔ r' a b)) →
      List.orderedInsert r a l = List.orderedInsert r' a l
  | [], _, _ => rfl
  | b :: l, a, h => by
    simp only [List.orderedInsert]
    by_cases hr : r a b
    · rw [if_pos hr, if_pos ((h b (List.mem_cons_self b l)).mp hr)]
    · rw [if_neg hr, if_neg fun hx => hr ((h b (List.mem_cons_self b l)).mpr hx),
        orderedInsert_congr r r' l a fun c hc => h c (List.mem_cons_of_mem b hc)]

/-- Stable insertion sort with two relations that agree on all pairs of the
list gives the same list. -/
lemma insertionSort_congr (r r' : History → History → Prop)
    [DecidableRel r] [DecidableRel r'] :
    ∀ (l : List History), (∀ a ∈ l, ∀ b ∈ l, (r a b ↔ r' a b)) →
      List.insertionSort r l = List.insertionSort r' l
  | [], _ => rfl
  | a :: l, h => by
    simp only [List.insertionSort]
    rw [insertionSort_congr r r' l
      fun x hx y hy => h x (List.mem_cons_of_mem a hx) y (List.mem_cons_of_mem a hy)]
    exact orderedInsert_congr r r' _ a fun b hb =>
      h a (List.mem_cons_self a l) b
        (List.mem_cons_of_mem a ((List.perm_insertionSort r' l).mem_iff.mp hb))

/-- C1, counterexample: on a changelog whose entries carry different UTC
offsets, the string order the code sorts by disagrees with chronological
order, and the accumulated in-progress total differs from the total on the
chronologically sorted sequence (-3 hours against 0 hours). -/
theorem C1_counterexample :
    calculate_time_in_progress mixedOffsetIssue mixedOffsetNow = some (-3) ∧
    calculate_time_in_progress_chrono mixedOffsetIssue mixedOffsetNow = some 0 ∧
    calculate_time_in_progress mixedOffsetIssue mixedOffsetNow ≠
      calculate_time_in_progress_chrono mixedOffsetIssue mixedOffsetNow := by
  have h1 : runInProgress (sortHistories mixedOffsetIssue.histories) ⟨0, none⟩ =
      some ⟨-10800000000, none⟩ := by decide
  have h2 : runInProgress (sortHistoriesChrono mixedOffsetIssue.histories) ⟨0, none⟩ =
      some ⟨0, some ⟨2024, 1, 1, 10, 0, 0, 0, 0⟩⟩ := by decide
  have e1 : calculate_time_in_progress mixedOffsetIssue mixedOffsetNow = some (-3) := by
    rw [calculate_time_in_progress, h1]
    simp only [Option.map_some', Option.some.injEq, AccState.totalSeconds]
    norm_num [microToSeconds]
  have hsub : subMicro mixedOffsetNow ⟨2024, 1, 1, 10, 0, 0, 0, 0⟩ = 0 := by decide
  have e2 : calculate_time_in_progress_chrono mixedOffsetIssue mixedOffsetNow =
      some 0 := by
    rw [calculate_time_in_progress_chrono, h2]
    simp only [Option.map_some', Option.some.injEq, hsub]
    norm_num [microToSeconds]
  refine ⟨e1, e2, ?_⟩
  rw [e1, e2]
  intro hcontra
  simp only [Option.some.injEq] at hcontra
  norm_num at hcontra

/-- C1, amended: the Interval Accumulator stably sorts the history entries by
their raw timestamp string; whenever that lexicographic order agrees with
chronological order on the changelog's entries (as it does when all entries
share one UTC offset), the accumulated totals of both metrics equal the
totals computed on the chronologically sorted sequence, ties keeping their
relative input order. -/
theorem C1_string_sort_eq_chrono (changelog : Issue) (now : PyDatetime)
    (hagree : ∀ h1 ∈ changelog.histories, ∀ h2 ∈ changelog.histories,
      (strLe h1.created h2.created = true ↔ timeKey h1 ≤ timeKey h2)) :
    calculate_time_in_progress changelog now =
      calculate_time_in_progress_chrono changelog now ∧
    calculate_time_in_review changelog now =
      calculate_time_in_review_chrono changelog now := by
  have hsort : sortHistories changelog.histories = sortHistoriesChrono changelog.histories :=
    insertionSort_congr _ _ changelog.histories hagree
  constructor
  · rw [calculate_time_in_progress, calculate_time_in_progress_chrono, hsort]
  · rw [calculate_time_in_review, calculate_time_in_review_chrono, hsort]

/-- C1 witness: on the scenario issue (one shared UTC offset) the string
order agrees with chronological order, so both metrics coincide with their
chronologically sorted counterparts. -/
theorem C1_witness :
    calculate_time_in_progress scenarioIssue someNow =
      calculate_time_in_progress_chrono scenarioIssue someNow ∧
    calculate_time_in_review scenarioIssue someNow =
      calculate_time_in_review_chrono scenarioIssue someNow :=
  C1_string_sort_eq_chrono scenarioIssue someNow (by decide)

/-- What a successful lexicographic comparison of two cons cells says. -/
lemma charListLe_cons_elim {a b : Char} {as bs : List Char}
    (h : charListLe (a :: as) (b :: bs) = true) :
    a.toNat < b.toNat ∨ (a.toNat = b.toNat ∧ charListLe as bs = true) := by
  simp only [charListLe] at h
  by_cases h1 : a.toNat < b.toNat
  · exact Or.inl h1
  · rw [if_neg h1] at h
    by_cases h2 : b.toNat < a.toNat
    · rw [if_pos h2] at h
      exact absurd h (by simp)
    · rw [if_neg h2] at h
      exact Or.inr ⟨by omega, h⟩

/-- The lexicographic order on character lists is total. -/
lemma charListLe_total : ∀ a b : List Char,
    charListLe a b = true ∨ charListLe b a = true
  | [], _ => Or.inl rfl
  | _ :: _, [] => Or.inr rfl
  | a :: as, b :: bs => by
    simp only [charListLe]
    rcases Nat.lt_trichotomy a.toNat b.toNat with h | h | h
    · left
      rw [if_pos h]
    · rw [if_neg (by omega), if_neg (by omega), if_neg (by omega), if_neg (by omega)]
      exact charListLe_total as bs
    · right
      rw [if_pos h]

/-- The lexicographic order on character lists is transitive. -/
lemma charListLe_trans : ∀ a b c : List Char,
    charListLe a b = true → charListLe b c = true → charListLe a c = true
  | [], _, _, _, _ => rfl
  | _ :: _, [], _, hab, _ => by simp [charListLe] at hab
  | _ :: _, _ :: _, [], _, hbc => by simp [charListLe] at hbc
  | a :: as, b :: bs, c :: cs, hab, hbc => by
    simp only [charListLe]
    rcases charListLe_cons_elim hab with h1 | ⟨h1, hr1⟩ <;>
      rcases charListLe_cons_elim hbc with h2 | ⟨h2, hr2⟩
    · rw [if_pos (by omega)]
    · rw [if_pos (by omega)]
    · rw [if_pos (by omega)]
    · rw [if_neg (by omega), if_neg (by omega)]
      exact charListLe_trans as bs cs hr1 hr2

/-- The lexicographic order on character lists is antisymmetric. -/
lemma charListLe_antisymm : ∀ a b : List Char,
    charListLe a b = true → charListLe b a = true → a = b
  | [], [], _, _ => rfl
  | [], _ :: _, _, hba => by simp [charListLe] at hba
  | _ :: _, [], hab, _ => by simp [charListLe] at hab
  | a :: as, b :: bs, hab, hba => by
    rcases charListLe_cons_elim hab with h1 | ⟨h1, hr1⟩ <;>
      rcases charListLe_cons_elim hba with h2 | ⟨h2, hr2⟩
    · omega
    · omega
    · omega
    · have hc : a = b := by
        have := Char.ofNat_toNat a
        rw [h1, Char.ofNat_toNat] at this
        exact this.symm
      rw [hc, charListLe_antisymm as bs hr1 hr2]

/-- `strLe` is total. -/
lemma strLe_total (a b : String) : strLe a b = true ∨ strLe b a = true :=
  charListLe_total a.data b.data

/-- `strLe` is transitive. -/
lemma strLe_trans {a b c : String} (h1 : strLe a b = true) (h2 : strLe b c = true) :
    strLe a c = true :=
  charListLe_trans a.data b.data c.data h1 h2

/-- `strLe` is antisymmetric. -/
lemma strLe_antisymm : ∀ {a b : String}, strLe a b = true → strLe b a = true → a = b
  | ⟨da⟩, ⟨db⟩, h1, h2 => congrArg String.mk (charListLe_antisymm da db h1 h2)

/-- Non-strict order plus distinctness gives the strict string order. -/
lemma strLt_of_le_ne {a b : String} (hle : strLe a b = true) (hne : a ≠ b) :
    strLt a b = true := by
  rw [strLt, Bool.and_eq_true, hle]
  refine ⟨rfl, ?_⟩
  rw [Bool.not_eq_true']
  cases hba : strLe b a
  · rfl
  · exact absurd (strLe_antisymm hle hba) hne

/-- The keys after `addToBuckets` are the old keys plus possibly `k`. -/
lemma addToBuckets_keys_mem (k : String) (v : MetricsDict) :
    ∀ (bs : Buckets) (x : String),
      x ∈ (addToBuckets bs k v).map Prod.fst ↔ x ∈ bs.map Prod.fst ∨ x = k
  | [], x => by simp [addToBuckets]
  | (k', vs) :: rest, x => by
    by_cases hk : k' = k
    · subst hk
      simp [addToBuckets]
      tauto
    · simp only [addToBuckets, if_neg hk, List.map_cons, List.mem_cons,
        addToBuckets_keys_mem k v rest x]
      tauto

/-- `addToBuckets` preserves bucket well-formedness. -/
lemma addToBuckets_wf (k : String) (v : MetricsDict) :
    ∀ (bs : Buckets), BucketsWF bs → BucketsWF (addToBuckets bs k v)
  | [], _ => by
    refine ⟨?_, by simp [addToBuckets]⟩
    intro p hp
    simp only [addToBuckets, List.mem_singleton] at hp
    subst hp
    simp
  | (k', vs) :: rest, h => by
    obtain ⟨hne, hnd⟩ := h
    by_cases hk : k' = k
    · have hstep : addToBuckets ((k', vs) :: rest) k v = (k', vs ++ [v]) :: rest := by
        simp [addToBuckets, hk]
      rw [hstep]
      refine ⟨?_, ?_⟩
      · intro p hp
        rcases List.mem_cons.mp hp with hp | hp
        · subst hp
          simp
        · exact hne p (List.mem_cons_of_mem _ hp)
      · simpa using hnd
    · have hstep : addToBuckets ((k', vs) :: rest) k v = (k', vs) :: addToBuckets rest k v := by
        simp [addToBuckets, hk]
      have hrest : BucketsWF rest :=
        ⟨fun p hp => hne p (List.mem_cons_of_mem _ hp), (List.nodup_cons.mp hnd).2⟩
      have hih := addToBuckets_wf k v rest hrest
      rw [hstep]
      refine ⟨?_, ?_⟩
      · intro p hp
        rcases List.mem_cons.mp hp with hp | hp
        · subst hp
          exact hne (k', vs) (List.mem_cons_self _ _)
        · exact hih.1 p hp
      · simp only [List.map_cons, List.nodup_cons]
        refine ⟨?_, hih.2⟩
        rw [addToBuckets_keys_mem]
        push_neg
        exact ⟨(List.nodup_cons.mp hnd).1, hk⟩

/-- Well-formedness of all four bucket dicts at once. -/
def Buckets4WF (b : Buckets4) : Prop :=
  BucketsWF b.yearly ∧ BucketsWF b.monthly ∧ BucketsWF b.weekly ∧ BucketsWF b.daily

/-- One loop iteration preserves well-formedness of the four bucket dicts. -/
lemma issueBucketUpdate_wf (now : PyDatetime) (sd ed : Option PyDatetime)
    (issue : Issue) (b b2 : Buckets4) (h : Buckets4WF b)
    (heq : issueBucketUpdate now sd ed issue b = some b2) : Buckets4WF b2 := by
  unfold issueBucketUpdate at heq
  split at heq
  · exact Option.noConfusion heq
  · split at heq
    · exact Option.noConfusion heq
    · split at heq
      · exact Option.noConfusion heq
      · cases heq
        exact h
      · split at heq
        · exact Option.noConfusion heq
        · split at heq
          · exact Option.noConfusion heq
          · cases heq
            exact h
          · split_ifs at heq
            · cases heq
              exact h
            · cases heq
              exact h
            · cases heq
              exact ⟨addToBuckets_wf _ _ _ h.1, addToBuckets_wf _ _ _ h.2.1,
                addToBuckets_wf _ _ _ h.2.2.1, addToBuckets_wf _ _ _ h.2.2.2⟩

/-- The whole loop preserves well-formedness of the four bucket dicts. -/
lemma processIssues_wf (now : PyDatetime) (sd ed : Option PyDatetime) :
    ∀ (issues : List Issue) (b b' : Buckets4), Buckets4WF b →
      processIssues now sd ed issues b = some b' → Buckets4WF b'
  | [], b, b', h, heq => by
    cases heq
    exact h
  | issue :: rest, b, b', h, heq => by
    rw [processIssues] at heq
    cases hu : issueBucketUpdate now sd ed issue b with
    | none =>
      rw [hu] at heq
      exact Option.noConfusion heq
    | some b2 =>
      rw [hu] at heq
      exact processIssues_wf now sd ed rest b2 b' (issueBucketUpdate_wf now sd ed issue b b2 h hu) heq

/-- A non-empty metrics list yields a summary counting at least one ticket. -/
lemma calculate_averages_count_pos (l : List MetricsDict) (hl : l ≠ []) :
    1 ≤ (calculate_averages l).ticket_count := by
  rw [calculate_averages_nonempty l hl]
  exact Nat.one_le_iff_ne_zero.mpr fun h => hl (List.length_eq_zero.mp h)

/-- Summarising a well-formed bucket dict: every row counts at least one
ticket and the period keys are strictly ascending. -/
lemma finalizeBuckets_ok (bs : Buckets) (hwf : BucketsWF bs) :
    (∀ row ∈ finalizeBuckets bs, 1 ≤ row.stats.ticket_count) ∧
    List.Pairwise (fun a b : PeriodRow => strLt a.period b.period = true)
      (finalizeBuckets bs) := by
  have hperm := List.perm_insertionSort
    (fun a b : String × List MetricsDict => strLe a.1 b.1 = true) bs
  constructor
  · intro row hrow
    rw [finalizeBuckets] at hrow
    obtain ⟨p, hp, hrw⟩ := List.mem_map.mp hrow
    subst hrw
    exact calculate_averages_count_pos p.2 (hwf.1 p (hperm.mem_iff.mp hp))
  · rw [finalizeBuckets]
    rw [List.pairwise_map]
    have hsorted : List.Pairwise (fun a b : String × List MetricsDict => strLe a.1 b.1 = true)
        (List.insertionSort (fun a b => strLe a.1 b.1 = true) bs) := by
      haveI : IsTotal (String × List MetricsDict) (fun a b => strLe a.1 b.1 = true) :=
        ⟨fun a b => strLe_total a.1 b.1⟩
      haveI : IsTrans (String × List MetricsDict) (fun a b => strLe a.1 b.1 = true) :=
        ⟨fun _ _ _ => strLe_trans⟩
      exact List.sorted_insertionSort _ bs
    have hnodup : ((List.insertionSort (fun a b : String × List MetricsDict =>
        strLe a.1 b.1 = true) bs).map Prod.fst).Nodup :=
      ((hperm.map Prod.fst).nodup_iff).mpr hwf.2
    have hne : List.Pairwise (fun a b : String × List MetricsDict => a.1 ≠ b.1)
        (List.insertionSort (fun a b => strLe a.1 b.1 = true) bs) :=
      List.pairwise_map.mp hnodup
    exact (hsorted.and hne).imp fun hab => strLt_of_le_ne hab.1 hab.2

/-- C10: every period summary produced by `aggregate_metrics_by_period`
counts at least one ticket (buckets exist only when an issue was appended),
and within each granularity the period keys are distinct and strictly
ascending. -/
theorem C10_period_summaries (issues : List Issue) (sd ed : Option PyDatetime)
    (now : PyDatetime) (res : AggResult)
    (hres : aggregate_metrics_by_period issues sd ed now = some res) :
    ∀ L ∈ [res.yearly, res.monthly, res.weekly, res.daily],
      (∀ row ∈ L, 1 ≤ row.stats.ticket_count) ∧
      List.Pairwise (fun a b : PeriodRow => strLt a.period b.period = true) L := by
  simp only [aggregate_metrics_by_period] at hres
  cases hproc : processIssues now (ensure_timezone_aware sd) (ensure_timezone_aware ed)
      issues ⟨[], [], [], []⟩ with
  | none =>
    rw [hproc] at hres
    exact Option.noConfusion hres
  | some b4 =>
    rw [hproc] at hres
    simp only [Option.map_some', Option.some.injEq] at hres
    subst hres
    have hwf0 : Buckets4WF ⟨[], [], [], []⟩ := by
      refine ⟨⟨?_, ?_⟩, ⟨?_, ?_⟩, ⟨?_, ?_⟩, ⟨?_, ?_⟩⟩ <;> simp
    have hwf := processIssues_wf now (ensure_timezone_aware sd) (ensure_timezone_aware ed)
      issues ⟨[], [], [], []⟩ b4 hwf0 hproc
    intro L hL
    simp only [List.mem_cons, List.not_mem_nil, or_false] at hL
    rcases hL with h | h | h | h <;> subst h
    · exact finalizeBuckets_ok b4.yearly hwf.1
    · exact finalizeBuckets_ok b4.monthly hwf.2.1
    · exact finalizeBuckets_ok b4.weekly hwf.2.2.1
    · exact finalizeBuckets_ok b4.daily hwf.2.2.2

/-- C10 witness: the empty issue list aggregates to four empty period lists,
which satisfy the bucket properties vacuously. -/
theorem C10_witness :
    (∀ row ∈ ([] : List PeriodRow), 1 ≤ row.stats.ticket_count) ∧
    List.Pairwise (fun a b : PeriodRow => strLt a.period b.period = true)
      ([] : List PeriodRow) :=
  C10_period_summaries [] none none someNow (AggResult.mk [] [] [] []) rfl [] (by simp)
